import Mathlib

/-
  Verification development for the FraudDocAI multi-signal fraud-risk scoring
  engine.  Python strings are embedded as `List Char`; floats as `ℚ`; the
  injected model capabilities (emotion classifier, extractive QA model) as
  explicit function arguments; wall-clock readings as explicit `ℚ` arguments.

  Embedded source files:
    - ai-service/document_qa_service.py  (DocumentQuestionAnsweringService)
    - ai-service/emotion_fraud_detector.py (EmotionFraudDetector)
    - ai-service/app.py                  (analyze_text_for_fraud)
    - ai-service/app_updated.py          (analyze_text_for_fraud)
-/

namespace FraudDoc

/-- Python strings are modelled as lists of characters. -/
abbrev Str := List Char

/-- Python `str.lower()` (ASCII case folding, as used by every keyword in the source). -/
def pyLower (s : Str) : Str := s.map Char.toLower

/-- Python `needle in hay` substring test (`"" in s` is `True`). -/
def containsSub (needle : Str) : Str → Bool
  | [] => needle.isPrefixOf []
  | c :: t => needle.isPrefixOf (c :: t) || containsSub needle t

/-- Helper for `pySplit`: accumulates the current chunk in reverse. -/
def pySplitAux (sep : Char) : Str → Str → List Str
  | [], cur => [cur.reverse]
  | c :: rest, cur =>
    if c = sep then cur.reverse :: pySplitAux sep rest []
    else pySplitAux sep rest (c :: cur)

/-- Python `s.split(sep)` for a one-character separator: keeps empty chunks,
`"".split(sep) == [""]`. -/
def pySplit (sep : Char) (s : Str) : List Str := pySplitAux sep s []

/-- Helper for `pyWords`: accumulates the current word in reverse. -/
def pyWordsAux : Str → Str → List Str
  | [], cur => if cur.isEmpty then [] else [cur.reverse]
  | c :: rest, cur =>
    if c.isWhitespace then
      if cur.isEmpty then pyWordsAux rest [] else cur.reverse :: pyWordsAux rest []
    else pyWordsAux rest (c :: cur)

/-- Python `s.split()` (no argument): split on whitespace runs, no empty words. -/
def pyWords (s : Str) : List Str := pyWordsAux s []

/-- Python `s.strip()`: drop leading and trailing whitespace. -/
def pyStrip (s : Str) : Str :=
  ((s.dropWhile Char.isWhitespace).reverse.dropWhile Char.isWhitespace).reverse

/-- Python string `<`: lexicographic comparison by code point, a proper
prefix is smaller. -/
def strLt : Str → Str → Bool
  | [], [] => false
  | [], _ :: _ => true
  | _ :: _, [] => false
  | a :: as, b :: bs => if a < b then true else if b < a then false else strLt as bs

/-- Python tuple comparison `x > y` on `(overlap, sentence)` pairs, as used by
`scored_sentences.sort(reverse=True)`. -/
def tupGtB (x y : ℕ × Str) : Bool :=
  decide (y.1 < x.1) || (decide (x.1 = y.1) && strLt y.2 x.2)

/-- Stable descending insertion (the element being inserted is the earlier one,
so on ties it goes first), matching CPython's stable `list.sort(reverse=True)`. -/
def insertDesc (a : ℕ × Str) : List (ℕ × Str) → List (ℕ × Str)
  | [] => [a]
  | b :: l => if tupGtB b a then b :: insertDesc a l else a :: b :: l

/-- CPython `scored_sentences.sort(reverse=True)`: stable descending sort by Python
tuple order. -/
def pySortDesc : List (ℕ × Str) → List (ℕ × Str)
  | [] => []
  | a :: l => insertDesc a (pySortDesc l)

/-- Numeric value of a run of decimal digits. -/
def digitsVal (ds : Str) : ℕ := ds.foldl (fun a c => 10 * a + (c.toNat - 48)) 0

/-- Model of `re.findall(r'\$[\d,]+\.?\d*', text)`: a dollar sign, a nonempty greedy run
of digits/commas, an optional dot followed by a greedy run of digits;
non-overlapping matches scanned left to right. -/
def amountScan : Str → List Str
  | [] => []
  | c :: rest =>
    if c = '$' then
      let run1 := rest.takeWhile (fun d => d.isDigit || d = ',')
      if run1.isEmpty then amountScan rest
      else
        match h : rest.drop run1.length with
        | [] => [c :: run1]
        | d :: rest3 =>
          if d = '.' then
            let run2 := rest3.takeWhile Char.isDigit
            (c :: (run1 ++ d :: run2)) :: amountScan (rest3.drop run2.length)
          else (c :: run1) :: amountScan (d :: rest3)
    else amountScan rest
termination_by s => s.length
decreasing_by
  all_goals simp only [List.length_cons, List.length_drop]
  all_goals try omega
  all_goals
    (have hl := congrArg List.length h
     simp only [List.length_drop, List.length_cons] at hl
     omega)

/-- Model of `float(amount_str.replace('$', '').replace(',', ''))`, returning `none`
when `float` would raise `ValueError` (no digit at all). -/
def parseAmount (m : Str) : Option ℚ :=
  let stripped := m.filter (fun c => !(c = '$' || c = ','))
  let intPart := stripped.takeWhile Char.isDigit
  match stripped.drop intPart.length with
  | [] => if intPart.isEmpty then none else some (digitsVal intPart)
  | d :: frac =>
    if d = '.' then
      let fracDigits := frac.takeWhile Char.isDigit
      if intPart.isEmpty && fracDigits.isEmpty then none
      else some ((digitsVal intPart : ℚ) + (digitsVal fracDigits : ℚ) / 10 ^ fracDigits.length)
    else none

/-- Decimal digits of a natural number, for the f-string counts in
signal descriptions. -/
def natChars (n : ℕ) : Str := Nat.toDigits 10 n

/-- Floor of a rational. -/
def ratFloor (q : ℚ) : ℤ := q.num.fdiv q.den

/-- Python `round(x, n)`: round half to even at `n` decimal places
(floats idealized as rationals). -/
def pyRound (x : ℚ) (n : ℕ) : ℚ :=
  let m : ℚ := x * (10 : ℚ) ^ n
  let f : ℤ := ratFloor m
  let r : ℚ := m - (f : ℚ)
  let k : ℤ := if r < 1/2 then f else if 1/2 < r then f + 1 else if f % 2 = 0 then f else f + 1
  (k : ℚ) / (10 : ℚ) ^ n

/-! ## document_qa_service.py — DocumentQuestionAnsweringService -/

/-- The apostrophe character, used inside keyword and indicator strings. -/
def quoteCh : Char := Char.ofNat 39

/-- The overlap score of `_extract_relevant_context`: size of the intersection
of the lowercase word sets of sentence and question. -/
def overlapScore (question sentence : Str) : ℕ :=
  (((pyWords (pyLower sentence)).dedup).filter
    (fun w => w ∈ pyWords (pyLower question))).length

/-- The `(overlap, sentence)` list built by `_extract_relevant_context`
(sentences are the chunks of `context.split('.')`, in document order). -/
def scoredSentences (question context : Str) : List (ℕ × Str) :=
  (pySplit '.' context).map (fun sen => (overlapScore question sen, sen))

/-- The candidate order after `scored_sentences.sort(reverse=True)`. -/
def selectionOrder (question context : Str) : List (ℕ × Str) :=
  pySortDesc (scoredSentences question context)

/-- The greedy accumulation loop of `_extract_relevant_context`: append each
sentence (followed by `". "`) while `len(relevant_context + sentence)` stays
within `max_length`; stop at the first sentence that does not fit. -/
def qaContextJoin (maxLength : ℕ) : List (ℕ × Str) → Str → Str
  | [], rel => rel
  | (_, sen) :: rest, rel =>
    if (rel ++ sen).length ≤ maxLength then
      qaContextJoin maxLength rest (rel ++ sen ++ ['.', ' '])
    else rel

/-- Model of `DocumentQuestionAnsweringService._extract_relevant_context`.  The
`except` fallback of the source is dead code here (nothing in the body can
raise). -/
def extractRelevantContext (question context : Str) (maxLength : ℕ) : Str :=
  let rel := qaContextJoin maxLength (selectionOrder question context) []
  let stripped := pyStrip rel
  if stripped.isEmpty then context.take maxLength else stripped

/-- The injected extractive-QA capability
(`self.qa_model(question=..., context=...)`): either an
`(answer, confidence)` pair or a raised exception message. -/
abbrev QAOracle := Str → Str → Except Str (Str × ℚ)

/-- The answer `"Error processing question"` reported when the QA capability
raises. -/
def errProcessingMsg : Str := "Error processing question".toList

/-- The fields of `answer_question`'s result dict used downstream. -/
structure QAAnswer where
  answer : Str
  confidence : ℚ
  error : Option Str
deriving DecidableEq

/-- Model of `DocumentQuestionAnsweringService.answer_question` (loaded-model path):
windows the context beyond 512 characters, queries the capability, and maps a
capability exception to the error answer with confidence `0.0`. -/
def answer_question (qa : QAOracle) (question context : Str) : QAAnswer :=
  let ctx := if 512 < context.length then extractRelevantContext question context 512 else context
  match qa question ctx with
  | Except.ok (ans, conf) => { answer := ans, confidence := pyRound conf 3, error := none }
  | Except.error e => { answer := errProcessingMsg, confidence := 0, error := some e }

/-- The `urgency_words` list of `_analyze_answer_for_fraud`. -/
def qaUrgencyWords : List Str :=
  ["urgent".toList, "immediate".toList, "asap".toList, "rush".toList,
   "emergency".toList, "critical".toList, "now".toList]

/-- The `suspicious_payment_words` list of `_analyze_answer_for_fraud`. -/
def qaPaymentWords : List Str :=
  ["wire transfer".toList, "bitcoin".toList, "cryptocurrency".toList,
   "cash".toList, "untraceable".toList]

/-- The `secrecy_words` list of `_analyze_answer_for_fraud`. -/
def qaSecrecyWords : List Str :=
  ["confidential".toList, "secret".toList, "private".toList,
   "don".toList ++ quoteCh :: "t tell".toList, "keep quiet".toList, "discrete".toList]

/-- The `general_fraud_words` list of `_analyze_answer_for_fraud`. -/
def qaGeneralFraudWords : List Str :=
  ["fake".toList, "forged".toList, "duplicate".toList, "altered".toList,
   "tampered".toList, "offshore".toList, "shell company".toList]

/-- One f-string such as `f"Urgency indicator: '{word}'"`. -/
def indicatorMsg (pre w : Str) : Str := pre ++ quoteCh :: w ++ [quoteCh]

/-- One category-specific word loop of `_analyze_answer_for_fraud`: each listed
word present in the lowercase answer appends one indicator and adds `inc`. -/
def wordScan (answerLower pre : Str) (inc : ℚ) (ws : List Str) : List Str × ℚ :=
  ws.foldl
    (fun acc w =>
      if containsSub w answerLower then (acc.1 ++ [indicatorMsg pre w], acc.2 + inc)
      else acc)
    ([], 0)

/-- The `amount_verification` loop of `_analyze_answer_for_fraud`: each parsed
currency match above 10000 appends one indicator and adds `0.2`; `ValueError`
on parsing is swallowed. -/
def amountIndicators (answer : Str) : List Str × ℚ :=
  (amountScan answer).foldl
    (fun acc m =>
      match parseAmount m with
      | some v =>
        if 10000 < v then (acc.1 ++ ["Large amount detected: ".toList ++ m], acc.2 + 2/10)
        else acc
      | none => acc)
    ([], 0)

/-- The `{risk_score, indicators}` dict returned by
`_analyze_answer_for_fraud`. -/
structure FraudIndicators where
  risk_score : ℚ
  indicators : List Str
deriving DecidableEq

/-- The category-specific branch of `_analyze_answer_for_fraud` (the
`contact_verification` and `transaction_purpose` categories have no branch). -/
def categoryScan (answer category : Str) : List Str × ℚ :=
  if category = "urgency_indicators".toList then
    wordScan (pyLower answer) "Urgency indicator: ".toList (2/10) qaUrgencyWords
  else if category = "payment_methods".toList then
    wordScan (pyLower answer) "Suspicious payment method: ".toList (3/10) qaPaymentWords
  else if category = "secrecy_indicators".toList then
    wordScan (pyLower answer) "Secrecy indicator: ".toList (4/10) qaSecrecyWords
  else if category = "amount_verification".toList then
    amountIndicators answer
  else ([], 0)

/-- Model of `DocumentQuestionAnsweringService._analyze_answer_for_fraud`:
category-specific indicators plus the always-run general scan, with the
accumulated risk clamped to `1`. -/
def analyzeAnswerForFraud (answer category : Str) : FraudIndicators :=
  let catPart := categoryScan answer category
  let genPart := wordScan (pyLower answer) "General fraud indicator: ".toList (3/10)
    qaGeneralFraudWords
  { risk_score := min (catPart.2 + genPart.2) 1, indicators := catPart.1 ++ genPart.1 }

/-- One entry of the static `fraud_questions` battery. -/
structure QAQuestionSpec where
  question : Str
  category : Str
  risk_weight : ℚ
deriving DecidableEq

/-- The six predefined fraud detection questions of
`analyze_document_for_fraud_questions`. -/
def fraudQuestions : List QAQuestionSpec :=
  [⟨"What is the total amount mentioned in this document?".toList,
    "amount_verification".toList, 3/10⟩,
   ⟨"Are there any urgent or immediate payment requests?".toList,
    "urgency_indicators".toList, 4/10⟩,
   ⟨"What contact information is provided in this document?".toList,
    "contact_verification".toList, 2/10⟩,
   ⟨"Are there any mentions of wire transfers or cryptocurrency?".toList,
    "payment_methods".toList, 5/10⟩,
   ⟨"What is the purpose or reason for this transaction?".toList,
    "transaction_purpose".toList, 3/10⟩,
   ⟨"Are there any confidentiality or secrecy requirements mentioned?".toList,
    "secrecy_indicators".toList, 6/10⟩]

/-- One entry of the `fraud_analysis` list.  The success branch of the
per-question loop carries no `"error"` key (`error := none`); the outer
`except` branch that would set one is unreachable, because `answer_question`
catches capability errors itself and nothing else in the loop body raises. -/
structure FraudQAItem where
  question : Str
  answer : Str
  confidence : ℚ
  category : Str
  fraud_indicators : FraudIndicators
  risk_score : ℚ
  error : Option Str
deriving DecidableEq

/-- One iteration of the question loop of
`analyze_document_for_fraud_questions`. -/
def qaItem (qa : QAOracle) (doc : Str) (spec : QAQuestionSpec) : FraudQAItem :=
  let r := answer_question qa spec.question doc
  let fi := analyzeAnswerForFraud r.answer spec.category
  { question := spec.question, answer := r.answer, confidence := r.confidence,
    category := spec.category, fraud_indicators := fi,
    risk_score := fi.risk_score * spec.risk_weight, error := none }

/-- The accumulated `total_risk_score` (sum of the per-question
`risk_score`s, never clamped in the source). -/
def totalRiskScore (qa : QAOracle) (doc : Str) : ℚ :=
  ((fraudQuestions.map (qaItem qa doc)).map (fun it => it.risk_score)).sum

/-- The result dict of `analyze_document_for_fraud_questions`
(loaded-model path). -/
structure FraudQAResult where
  fraud_analysis : List FraudQAItem
  overall_risk : Str
  total_risk_score : ℚ
  questions_analyzed : ℕ
deriving DecidableEq

/-- Model of `DocumentQuestionAnsweringService.analyze_document_for_fraud_questions`
(loaded-model path). -/
def analyze_document_for_fraud_questions (qa : QAOracle) (doc : Str) : FraudQAResult :=
  { fraud_analysis := fraudQuestions.map (qaItem qa doc),
    overall_risk :=
      if 7/10 ≤ totalRiskScore qa doc then "high".toList
      else if 4/10 ≤ totalRiskScore qa doc then "medium".toList
      else "low".toList,
    total_risk_score := pyRound (totalRiskScore qa doc) 3,
    questions_analyzed := fraudQuestions.length }

/-! ## emotion_fraud_detector.py — EmotionFraudDetector -/

/-- The injected emotion-classification capability: the label/score list of
`self.emotion_model(text_sample)[0]`, or `none` when the model is not loaded
or the call raises. -/
abbrev EmotionCap := Str → Option (List (Str × ℚ))

/-- The `fraud_emotions` list of `_is_fraud_indicating_emotion` (the same three literal
labels appear in app.py line 542 and app_updated.py lines 654/704). -/
def fraudEmotions : List Str := ["anger".toList, "fear".toList, "sadness".toList]

/-- Model of `EmotionFraudDetector._is_fraud_indicating_emotion`. -/
def is_fraud_indicating_emotion (emotion : Str) (confidence : ℚ) : Bool :=
  fraudEmotions.contains (pyLower emotion) && decide (3/10 < confidence)

/-- Model of `EmotionFraudDetector._get_fraud_reason`. -/
def get_fraud_reason (emotion : Str) : Str :=
  if pyLower emotion = "anger".toList then
    "Anger can indicate frustration with legitimate processes, suggesting potential fraud".toList
  else if pyLower emotion = "fear".toList then
    "Fear often accompanies fraudulent activities due to risk of discovery".toList
  else if pyLower emotion = "sadness".toList then
    "Sadness might indicate desperation leading to fraudulent behavior".toList
  else "Emotional pattern may indicate suspicious activity".toList

/-- Model of `EmotionFraudDetector._get_emotion_weight`. -/
def get_emotion_weight (emotion : Str) : ℚ :=
  if pyLower emotion = "anger".toList then 4/10
  else if pyLower emotion = "fear".toList then 6/10
  else if pyLower emotion = "sadness".toList then 3/10
  else 2/10

/-- The result dict of `analyze_emotions`: the emotion list (label, rounded
confidence), the fraud-indicator list (label, rounded confidence, reason), the
clamped and rounded `emotion_fraud_score`, and whether the error branch was
taken. -/
structure EmotionAnalysis where
  emotions : List (Str × ℚ)
  fraud_indicators : List (Str × ℚ × Str)
  emotion_fraud_score : ℚ
  error : Bool
deriving DecidableEq

/-- The loop body of `analyze_emotions`, threading
`(emotions, fraud_indicators, emotion_fraud_score)`. -/
def emotionStep (acc : List (Str × ℚ) × List (Str × ℚ × Str) × ℚ) (r : Str × ℚ) :
    List (Str × ℚ) × List (Str × ℚ × Str) × ℚ :=
  let emotions := acc.1 ++ [(r.1, pyRound r.2 3)]
  if is_fraud_indicating_emotion r.1 r.2 then
    (emotions, acc.2.1 ++ [(r.1, pyRound r.2 3, get_fraud_reason r.1)],
     acc.2.2 + r.2 * get_emotion_weight r.1)
  else (emotions, acc.2.1, acc.2.2)

/-- Model of `EmotionFraudDetector.analyze_emotions`: truncate the text to 512
characters, classify, keep only fraud-indicating labels above the threshold,
clamp the weighted sum to 1 and round it to three decimals. -/
def analyze_emotions (cap : EmotionCap) (text : Str) : EmotionAnalysis :=
  match cap (text.take 512) with
  | none => { emotions := [], fraud_indicators := [], emotion_fraud_score := 0, error := true }
  | some results =>
    let z := results.foldl emotionStep ([], [], 0)
    { emotions := z.1, fraud_indicators := z.2.1,
      emotion_fraud_score := pyRound (min z.2.2 1) 3, error := false }

/-- One `patterns` entry (`{pattern, confidence, description}`), shared by the
detector and both app variants. -/
structure PatternEntry where
  pattern : Str
  confidence : ℚ
  description : Str
deriving DecidableEq

/-- The `fraud_keywords` list of `EmotionFraudDetector._analyze_patterns`
(the identical literal list appears in app.py lines 553-557). -/
def appFraudKeywords : List Str :=
  ["urgent".toList, "immediate".toList, "confidential".toList, "wire transfer".toList,
   "bitcoin".toList, "cryptocurrency".toList, "offshore".toList, "tax haven".toList,
   "shell company".toList, "forged".toList, "fake".toList, "duplicate".toList,
   "altered".toList, "tampered".toList]

/-- The `urgency_words` list of `EmotionFraudDetector._analyze_patterns`. -/
def edUrgencyWords : List Str :=
  ["urgent".toList, "immediate".toList, "asap".toList, "rush".toList,
   "emergency".toList, "critical".toList]

/-- The f-string `f"Fraud-related keyword detected: '{keyword}'"`. -/
def keywordMsg (kw : Str) : Str := indicatorMsg "Fraud-related keyword detected: ".toList kw

/-- The body of the `fraud_keywords` presence loop: one `fraud_keyword` entry
with confidence `0.7` and `+0.1` on the score per present keyword (this loop
appears verbatim in both emotion_fraud_detector.py and app.py). -/
def appKeywordStep (textLower : Str) (acc : List PatternEntry × ℚ) (kw : Str) :
    List PatternEntry × ℚ :=
  if containsSub kw textLower then
    (acc.1 ++ [⟨"fraud_keyword".toList, 7/10, keywordMsg kw⟩], acc.2 + 1/10)
  else acc

/-- Model of `EmotionFraudDetector._analyze_patterns`: the `patterns` list and the
clamped `pattern_fraud_score`. -/
def emotionPatternAnalysis (text : Str) : List PatternEntry × ℚ :=
  let textLower := pyLower text
  let k := appFraudKeywords.foldl (appKeywordStep textLower) ([], (0 : ℚ))
  let amounts := amountScan text
  let a :=
    if 5 < amounts.length then
      (k.1 ++ [⟨"excessive_amounts".toList, 6/10,
                "Excessive number of monetary amounts: ".toList ++ natChars amounts.length⟩],
       k.2 + 2/10)
    else k
  let urgencyCount := edUrgencyWords.countP (fun w => containsSub w textLower)
  let u :=
    if 2 < urgencyCount then
      (a.1 ++ [⟨"urgency_indicators".toList, 6/10,
                "Multiple urgency indicators: ".toList ++ natChars urgencyCount⟩],
       a.2 + 15/100)
    else a
  (u.1, min u.2 1)

/-- The combined score of `analyze_fraud_patterns`:
`emotion_fraud_score * 0.4 + pattern_fraud_score * 0.6` (no renormalization). -/
def efdTotalScore (cap : EmotionCap) (text : Str) : ℚ :=
  (analyze_emotions cap text).emotion_fraud_score * (4/10)
    + (emotionPatternAnalysis text).2 * (6/10)

/-- The result dict of `EmotionFraudDetector.analyze_fraud_patterns`. -/
structure EFDResult where
  fraud_score : ℚ
  risk_level : Str
  emotion_analysis : EmotionAnalysis
  pattern_analysis : List PatternEntry × ℚ
  processing_time_ms : ℚ
deriving DecidableEq

/-- Model of `EmotionFraudDetector.analyze_fraud_patterns`; `t0`/`t1` are the two
`datetime.utcnow()` readings (in seconds). -/
def analyze_fraud_patterns (cap : EmotionCap) (text : Str) (t0 t1 : ℚ) : EFDResult :=
  { fraud_score := pyRound (efdTotalScore cap text) 3,
    risk_level :=
      if 8/10 ≤ efdTotalScore cap text then "critical".toList
      else if 6/10 ≤ efdTotalScore cap text then "high".toList
      else if 3/10 ≤ efdTotalScore cap text then "medium".toList
      else "low".toList,
    emotion_analysis := analyze_emotions cap text,
    pattern_analysis := emotionPatternAnalysis text,
    processing_time_ms := pyRound ((t1 - t0) * 1000) 2 }

/-! ## app.py — analyze_text_for_fraud -/

/-- The injected `text_classifier` capability of app.py: the label/score list
`classification_result[0]`, or `none` when the classifier is `None`, the
`"limited"` sentinel, its output is empty, or the call raises. -/
abbrev Classifier := Str → Option (List (Str × ℚ))

/-- Character classes of the email regex
`\b[A-Za-z0-9._%+-]+@[A-Za-z0-9.-]+\.[A-Z|a-z]{2,}\b`. -/
def emailLocalChar (c : Char) : Bool :=
  c.isAlpha || c.isDigit || c = '.' || c = '_' || c = '%' || c = '+' || c = '-'

/-- Domain-part character class of the email regex. -/
def emailDomainChar (c : Char) : Bool := c.isAlpha || c.isDigit || c = '.' || c = '-'

/-- Email scan modelling `re.findall` of the pattern above: a nonempty
local-part run, `@`, a domain run whose trailing alphabetic run has length at
least 2 and is preceded by a dot.  The regex's word-boundary anchors and TLD
backtracking are approximated; no claim depends on the exact email count. -/
def emailScanAux (loc : Str) : Str → List Str
  | [] => []
  | c :: rest =>
    if c = '@' then
      if loc.isEmpty then emailScanAux [] rest
      else
        let dom := rest.takeWhile emailDomainChar
        let tld := dom.reverse.takeWhile Char.isAlpha
        if 2 ≤ tld.length ∧ (dom.reverse.drop tld.length).head? = some '.' then
          (loc.reverse ++ c :: dom) :: emailScanAux [] (rest.drop dom.length)
        else emailScanAux [] rest
    else if emailLocalChar c then emailScanAux (c :: loc) rest
    else emailScanAux [] rest
termination_by s => s.length
decreasing_by
  all_goals simp only [List.length_cons, List.length_drop]
  all_goals omega

/-- Model of `re.findall` for the email pattern over the whole text. -/
def emailScan (s : Str) : List Str := emailScanAux [] s

/-- The f-string `f"Suspicious emotional tone detected: {label}"`. -/
def toneMsg (l : Str) : Str := "Suspicious emotional tone detected: ".toList ++ l

/-- Step 1 of app.py's `analyze_text_for_fraud`: one `suspicious_emotion`
pattern and `score * 0.2` for every label containing one of the three words as
a case-insensitive substring (no threshold on this path). -/
def appEmotionEntries (cl : Classifier) (text : Str) : List PatternEntry × ℚ :=
  match cl (text.take 512) with
  | none => ([], 0)
  | some rs =>
    rs.foldl
      (fun acc r =>
        if fraudEmotions.any (fun w => containsSub w (pyLower r.1)) then
          (acc.1 ++ [⟨"suspicious_emotion".toList, r.2, toneMsg r.1⟩], acc.2 + r.2 * (2/10))
        else acc)
      ([], 0)

/-- Steps 1-4 of app.py's `analyze_text_for_fraud`: the accumulated `patterns`
list and raw `fraud_score` before clamping. -/
def appAnalysis (cl : Classifier) (text : Str) : List PatternEntry × ℚ :=
  let textLower := pyLower text
  let k := appFraudKeywords.foldl (appKeywordStep textLower) (appEmotionEntries cl text)
  let amounts := amountScan text
  let a :=
    if 5 < amounts.length then
      (k.1 ++ [⟨"excessive_amounts".toList, 6/10,
                "Excessive number of monetary amounts detected: ".toList
                  ++ natChars amounts.length⟩],
       k.2 + 2/10)
    else k
  let emails := emailScan text
  if 3 < emails.length then
    (a.1 ++ [⟨"multiple_emails".toList, 5/10,
              "Multiple email addresses detected: ".toList ++ natChars emails.length⟩],
     a.2 + 1/10)
  else a

/-- The normalized fraud score of app.py: `min(fraud_score, 1.0)`. -/
def appFraudScore (cl : Classifier) (text : Str) : ℚ := min (appAnalysis cl text).2 1

/-- The result dict of app.py's `analyze_text_for_fraud`. -/
structure AppResult where
  fraud_score : ℚ
  risk_level : Str
  patterns : List PatternEntry
  processing_time : ℚ
deriving DecidableEq

/-- app.py `analyze_text_for_fraud`; `t0`/`t1` are the two
`datetime.utcnow()` readings (in seconds). -/
def analyze_text_for_fraud_app (cl : Classifier) (text : Str) (t0 t1 : ℚ) : AppResult :=
  { fraud_score := pyRound (appFraudScore cl text) 3,
    risk_level :=
      if 8/10 ≤ appFraudScore cl text then "critical".toList
      else if 6/10 ≤ appFraudScore cl text then "high".toList
      else if 3/10 ≤ appFraudScore cl text then "medium".toList
      else "low".toList,
    patterns := (appAnalysis cl text).1,
    processing_time := pyRound ((t1 - t0) * 1000) 2 }

/-! ## app_updated.py — analyze_text_for_fraud -/

/-- The `urgency` entry of app_updated.py's `fraud_keywords` dict. -/
def appUCatUrgency : Str × List Str :=
  ("urgency".toList,
   ["urgent".toList, "immediate".toList, "asap".toList, "emergency".toList,
    "critical".toList, "rush".toList])

/-- The `confidentiality` entry of app_updated.py's `fraud_keywords` dict. -/
def appUCatConfidentiality : Str × List Str :=
  ("confidentiality".toList,
   ["confidential".toList, "secret".toList, "do not share".toList,
    "private".toList, "exclusive".toList])

/-- The `payment` entry of app_updated.py's `fraud_keywords` dict. -/
def appUCatPayment : Str × List Str :=
  ("payment".toList,
   ["wire transfer".toList, "offshore".toList, "bitcoin".toList,
    "gift cards".toList, "western union".toList])

/-- The `amount` entry of app_updated.py's `fraud_keywords` dict. -/
def appUCatAmount : Str × List Str :=
  ("amount".toList,
   ["amount".toList, "total".toList, "sum".toList, "cost".toList,
    "price".toList, "payment".toList])

/-- The `fraud_keywords` category dict of app_updated.py (insertion order). -/
def appUFraudKeywords : List (Str × List Str) :=
  [appUCatUrgency, appUCatConfidentiality, appUCatPayment, appUCatAmount]

/-- The list `matches = [keyword for keyword in keywords if keyword in text_lower]`. -/
def appUMatches (text : Str) (kws : List Str) : List Str :=
  kws.filter (fun k => containsSub k (pyLower text))

/-- The f-string `f"Detected {len(matches)} {category} indicators"`. -/
def appUDescr (n : ℕ) (cat : Str) : Str :=
  "Detected ".toList ++ natChars n ++ ' ' :: cat ++ " indicators".toList

/-- The per-category entry appended to `pattern_scores` in step 2 of
app_updated.py, when the category has at least one match. -/
def appUEntryFor (text : Str) (ck : Str × List Str) : Option PatternEntry :=
  let ms := appUMatches text ck.2
  if ms.isEmpty then none
  else some ⟨ck.1, (ms.length : ℚ) / (ck.2.length : ℚ), appUDescr ms.length ck.1⟩

/-- The `pattern_scores` entries produced by step 2 of app_updated.py. -/
def appUPatternEntries (text : Str) : List PatternEntry :=
  appUFraudKeywords.filterMap (appUEntryFor text)

/-- Step 1 of app_updated.py: `score * 0.2` for every exact label in the
fraud set with confidence strictly above `0.3`. -/
def appUSec1Score (cl : Classifier) (text : Str) : ℚ :=
  match cl text with
  | none => 0
  | some rs =>
    rs.foldl
      (fun a r =>
        if fraudEmotions.contains r.1 && decide (3/10 < r.2) then a + r.2 * (2/10) else a)
      0

/-- Step 3 of app_updated.py: appended `emotional_manipulation` entries and
their `score * 0.2` contributions, for exact labels above `0.5`. -/
def appUSec3 (cl : Classifier) (text : Str) : List PatternEntry × ℚ :=
  match cl text with
  | none => ([], 0)
  | some rs =>
    rs.foldl
      (fun acc r =>
        if fraudEmotions.contains r.1 && decide (1/2 < r.2) then
          (acc.1 ++ [⟨"emotional_manipulation".toList, r.2, toneMsg r.1⟩],
           acc.2 + r.2 * (2/10))
        else acc)
      ([], 0)

/-- The raw accumulated `fraud_score` of app_updated.py (steps 1 + 2 + 3). -/
def appUScoreRaw (cl : Classifier) (text : Str) : ℚ :=
  appUSec1Score cl text
    + ((appUPatternEntries text).map (fun e => e.confidence * (3/10))).sum
    + (appUSec3 cl text).2

/-- The normalized fraud score of app_updated.py: `min(fraud_score, 1.0)`. -/
def appUFraudScore (cl : Classifier) (text : Str) : ℚ := min (appUScoreRaw cl text) 1

/-- The result fields of app_updated.py's `analyze_text_for_fraud` needed
here.  `pattern_scores` is the list referenced by
`pattern_analysis["patterns"]` after step 3's in-place appends;
`pattern_fraud_score` (the mean of step-2 confidences) is computed before
step 3 runs. -/
structure AppUResult where
  fraud_score : ℚ
  risk_level : Str
  pattern_scores : List PatternEntry
  pattern_fraud_score : ℚ
  processing_time : ℚ
deriving DecidableEq

/-- app_updated.py `analyze_text_for_fraud`; note the three-tier
`HIGH`/`MEDIUM`/`LOW` thresholds `0.7`/`0.4` on this path. -/
def analyze_text_for_fraud_updated (cl : Classifier) (text : Str) (t0 t1 : ℚ) : AppUResult :=
  { fraud_score := pyRound (appUFraudScore cl text) 3,
    risk_level :=
      if 7/10 ≤ appUFraudScore cl text then "HIGH".toList
      else if 4/10 ≤ appUFraudScore cl text then "MEDIUM".toList
      else "LOW".toList,
    pattern_scores := appUPatternEntries text ++ (appUSec3 cl text).1,
    pattern_fraud_score :=
      if (appUPatternEntries text).isEmpty then 0
      else ((appUPatternEntries text).map (fun e => e.confidence)).sum
             / ((appUPatternEntries text).length : ℚ),
    processing_time := pyRound ((t1 - t0) * 1000) 2 }

/-- Modelled from the claim's words (C1): the four-tier mapping the claim
asserts is applied to the final normalized score by every entry point,
rendered with app_updated.py's upper-case tier spelling for comparison. -/
def specRiskTier (s : ℚ) : Str :=
  if 8/10 ≤ s then "CRITICAL".toList
  else if 6/10 ≤ s then "HIGH".toList
  else if 3/10 ≤ s then "MEDIUM".toList
  else "LOW".toList

/-! ## Helper lemmas -/

/-- Value threaded by a left fold never decreases if no step decreases it. -/
theorem foldl_mono_of_step {α σ : Type} (step : σ → α → σ) (f : σ → ℚ) (l : List α)
    (h : ∀ acc, ∀ x ∈ l, f acc ≤ f (step acc x)) :
    ∀ init, f init ≤ f (l.foldl step init) := by
  induction l with
  | nil => intro init; simp
  | cons a t ih =>
    intro init
    refine le_trans (h init a (by simp)) (ih ?_ (step init a))
    intro acc x hx
    exact h acc x (by simp [hx])

/-- Membership in a list threaded by a left fold: every element either was in
the initial list or satisfies the per-step predicate. -/
theorem foldl_mem_of_step {α σ β : Type} (step : σ → α → σ) (g : σ → List β) (P : β → Prop)
    (l : List α) (h : ∀ acc, ∀ x ∈ l, ∀ e ∈ g (step acc x), e ∈ g acc ∨ P e) :
    ∀ init, ∀ e ∈ g (l.foldl step init), e ∈ g init ∨ P e := by
  induction l with
  | nil => intro init e he; exact Or.inl he
  | cons a t ih =>
    intro init e he
    have step_h : ∀ acc, ∀ x ∈ t, ∀ e ∈ g (step acc x), e ∈ g acc ∨ P e := by
      intro acc x hx
      exact h acc x (by simp [hx])
    rcases ih step_h (step init a) e he with h1 | h1
    · exact h init a (by simp) e h1
    · exact Or.inr h1

/-- Elements of `l.zip (l.map f)` pair each element with its image. -/
theorem zip_map_self {α β : Type} (f : α → β) :
    ∀ (l : List α), ∀ p ∈ l.zip (l.map f), p.2 = f p.1 ∧ p.1 ∈ l := by
  intro l
  induction l with
  | nil => intro p hp; simp at hp
  | cons a t ih =>
    intro p hp
    simp only [List.map_cons, List.zip_cons_cons, List.mem_cons] at hp
    rcases hp with rfl | hp
    · exact ⟨rfl, by simp⟩
    · rcases ih p hp with ⟨h1, h2⟩
      exact ⟨h1, by simp [h2]⟩

/-- Python string comparison is asymmetric. -/
theorem strLt_asymm : ∀ {a b : Str}, strLt a b = true → strLt b a = false := by
  intro a
  induction a with
  | nil => intro b h; cases b <;> simp_all [strLt]
  | cons x xs ih =>
    intro b h
    cases b with
    | nil => simp_all [strLt]
    | cons y ys =>
      simp only [strLt] at h ⊢
      rcases lt_trichotomy x y with hxy | hxy | hxy
      · simp [hxy, not_lt_of_lt hxy, lt_asymm hxy]
      · subst hxy; simp_all [lt_irrefl]
      · simp_all [hxy, not_lt_of_lt hxy, lt_asymm hxy]

/-- Non-strict Python string comparison (negation of `strLt`) is transitive. -/
theorem strLt_false_trans : ∀ {a b c : Str},
    strLt a b = false → strLt b c = false → strLt a c = false := by
  intro a
  induction a with
  | nil =>
    intro b c hab hbc
    cases b with
    | nil => cases c <;> simp_all [strLt]
    | cons y ys => simp [strLt] at hab
  | cons x xs ih =>
    intro b c hab hbc
    cases c with
    | nil => simp [strLt]
    | cons z zs =>
      cases b with
      | nil => simp [strLt] at hbc
      | cons y ys =>
        simp only [strLt] at hab hbc ⊢
        rcases lt_trichotomy x y with hxy | hxy | hxy
        · simp [hxy] at hab
        · subst hxy
          rcases lt_trichotomy x z with hxz | hxz | hxz
          · simp [hxz] at hbc
          · subst hxz
            simp only [lt_irrefl, if_false] at hab hbc ⊢
            exact ih hab hbc
          · simp [not_lt_of_lt hxz, hxz]
        · rcases lt_trichotomy y z with hyz | hyz | hyz
          · simp [hyz] at hbc
          · subst hyz
            simp [not_lt_of_lt hxy, hxy]
          · have hzx : z < x := lt_trans hyz hxy
            simp [not_lt_of_lt hzx, hzx]

/-- Python tuple comparison is asymmetric. -/
theorem tupGtB_asymm {x y : ℕ × Str} (h : tupGtB x y = true) : tupGtB y x = false := by
  simp only [tupGtB, Bool.or_eq_true, decide_eq_true_eq, Bool.and_eq_true,
    Bool.or_eq_false_iff, decide_eq_false_iff_not, Bool.and_eq_false_iff] at h ⊢
  rcases h with h | ⟨h1, h2⟩
  · exact ⟨by omega, Or.inl (by omega)⟩
  · exact ⟨by omega, Or.inr (strLt_asymm h2)⟩

/-- Negated Python tuple comparison is transitive. -/
theorem tupGtB_false_trans {a b c : ℕ × Str}
    (hba : tupGtB b a = false) (hcb : tupGtB c b = false) : tupGtB c a = false := by
  simp only [tupGtB, Bool.or_eq_false_iff, decide_eq_false_iff_not,
    Bool.and_eq_false_iff] at hba hcb ⊢
  obtain ⟨hba1, hba2⟩ := hba
  obtain ⟨hcb1, hcb2⟩ := hcb
  refine ⟨by omega, ?_⟩
  rcases hba2 with h2 | h2
  · exact Or.inl (by omega)
  · rcases hcb2 with h3 | h3
    · exact Or.inl (by omega)
    · by_cases hac : a.1 = c.1
      · exact Or.inr (strLt_false_trans h2 h3)
      · exact Or.inl (by omega)

/-- Inserting into a list is a permutation of consing. -/
theorem insertDesc_perm (a : ℕ × Str) : ∀ l, List.Perm (insertDesc a l) (a :: l) := by
  intro l
  induction l with
  | nil => simp [insertDesc]
  | cons b t ih =>
    simp only [insertDesc]
    split
    · exact List.Perm.trans (List.Perm.cons b ih) (List.Perm.swap a b t)
    · exact List.Perm.refl _

/-- The stable descending sort permutes its input. -/
theorem pySortDesc_perm : ∀ l, List.Perm (pySortDesc l) l := by
  intro l
  induction l with
  | nil => simp [pySortDesc]
  | cons a t ih =>
    exact List.Perm.trans (insertDesc_perm a (pySortDesc t)) (List.Perm.cons a ih)

/-- Inserting preserves the descending pairwise invariant. -/
theorem insertDesc_pairwise (a : ℕ × Str) :
    ∀ l, l.Pairwise (fun x y => tupGtB y x = false) →
      (insertDesc a l).Pairwise (fun x y => tupGtB y x = false) := by
  intro l
  induction l with
  | nil => intro _; simp [insertDesc]
  | cons b t ih =>
    intro h
    rcases List.pairwise_cons.mp h with ⟨hb, ht⟩
    simp only [insertDesc]
    by_cases hba : tupGtB b a = true
    · rw [if_pos hba]
      refine List.pairwise_cons.mpr ⟨?_, ih ht⟩
      intro e he
      rcases List.mem_cons.mp ((insertDesc_perm a t).mem_iff.mp he) with rfl | he2
      · exact tupGtB_asymm hba
      · exact hb e he2
    · rw [if_neg hba]
      have hba2 : tupGtB b a = false := by simpa using hba
      refine List.pairwise_cons.mpr ⟨?_, h⟩
      intro e he
      rcases List.mem_cons.mp he with rfl | he2
      · exact hba2
      · exact tupGtB_false_trans hba2 (hb e he2)

/-- The stable descending sort output is pairwise descending: no later element
compares strictly greater (in Python tuple order) than an earlier one. -/
theorem pySortDesc_pairwise :
    ∀ l, (pySortDesc l).Pairwise (fun x y => tupGtB y x = false) := by
  intro l
  induction l with
  | nil => simp [pySortDesc]
  | cons a t ih => exact insertDesc_pairwise a (pySortDesc t) ih

/-- The greedy joining loop never exceeds `maxLength + 2` characters, the two
extra characters being the final `". "` separator. -/
theorem qaContextJoin_length (maxLength : ℕ) :
    ∀ (l : List (ℕ × Str)) (rel : Str), rel.length ≤ maxLength + 2 →
      (qaContextJoin maxLength l rel).length ≤ maxLength + 2 := by
  intro l
  induction l with
  | nil => intro rel h; simpa [qaContextJoin] using h
  | cons p t ih =>
    intro rel h
    obtain ⟨n, sen⟩ := p
    simp only [qaContextJoin]
    split
    · refine ih _ ?_
      simp only [List.append_assoc, List.length_append, List.length_cons, List.length_nil]
      have : (rel ++ sen).length ≤ maxLength := by assumption
      simp only [List.length_append] at this
      omega
    · exact h

/-- If every sentence offered to the greedy loop exceeds `maxLength`, nothing
is accumulated. -/
theorem qaContextJoin_nil (maxLength : ℕ) (l : List (ℕ × Str))
    (h : ∀ p ∈ l, maxLength < p.2.length) : qaContextJoin maxLength l [] = [] := by
  cases l with
  | nil => rfl
  | cons p t =>
    obtain ⟨n, sen⟩ := p
    have hp : maxLength < sen.length := h (n, sen) (by simp)
    simp only [qaContextJoin, List.nil_append]
    rw [if_neg (by omega)]

/-- Stripping whitespace does not lengthen a string. -/
theorem pyStrip_length_le (s : Str) : (pyStrip s).length ≤ s.length := by
  unfold pyStrip
  calc ((s.dropWhile Char.isWhitespace).reverse.dropWhile Char.isWhitespace).reverse.length
      = ((s.dropWhile Char.isWhitespace).reverse.dropWhile Char.isWhitespace).length := by
        simp
    _ ≤ (s.dropWhile Char.isWhitespace).reverse.length :=
        (List.dropWhile_sublist _).length_le
    _ = (s.dropWhile Char.isWhitespace).length := by simp
    _ ≤ s.length := (List.dropWhile_sublist _).length_le

/-! ## Claim C4 — context windower length bound and fallback -/

/-- C4 (amended): the excerpt returned by `_extract_relevant_context` has at
most `max_length + 2` characters — the greedy fit check ignores the `". "`
separator appended after each selected sentence, so the plain `max_length`
bound of the claim fails — and when every candidate sentence is longer than
`max_length` (so no sentence fits), the windower returns exactly the first
`max_length` characters of the document text. -/
theorem C4_windower_bounds (question context : Str) (maxLength : ℕ) :
    (extractRelevantContext question context maxLength).length ≤ maxLength + 2 ∧
    ((∀ s ∈ pySplit '.' context, maxLength < s.length) →
      extractRelevantContext question context maxLength = context.take maxLength) := by
  constructor
  · have hb : (pyStrip (qaContextJoin maxLength (selectionOrder question context) [])).length
        ≤ maxLength + 2 :=
      le_trans (pyStrip_length_le _) (qaContextJoin_length maxLength _ [] (by simp))
    simp only [extractRelevantContext]
    split
    · exact le_trans (List.length_take_le _ _) (by omega)
    · exact hb
  · intro hall
    have hmem : ∀ p ∈ selectionOrder question context, maxLength < p.2.length := by
      intro p hp
      have hp2 : p ∈ scoredSentences question context :=
        (pySortDesc_perm _).mem_iff.mp hp
      rcases List.mem_map.mp hp2 with ⟨sen, hsen, rfl⟩
      exact hall sen hsen
    simp only [extractRelevantContext]
    rw [qaContextJoin_nil maxLength _ hmem]
    simp [pyStrip]

/-- C4 witness: with `max_length = 3` and the single eleven-character sentence
`"hello there"`, the windower falls back to the three-character prefix. -/
theorem C4_windower_bounds_witness :
    (∀ s ∈ pySplit '.' "hello there".toList, 3 < s.length) ∧
    extractRelevantContext "q".toList "hello there".toList 3 = "hel".toList := by
  refine ⟨by decide, ?_⟩
  exact ((C4_windower_bounds "q".toList "hello there".toList 3).2 (by decide)).trans (by decide)

/-- C4 counterexample: on question `"q"`, document `"ab"`, `max_length = 2`,
the windower returns `"ab."` of length 3, exceeding `max_length` (and, though
no sentence scores above zero, not the two-character prefix `"ab"`). -/
theorem C4_counterexample :
    (extractRelevantContext "q".toList "ab".toList 2).length = 3 ∧
    ¬ (extractRelevantContext "q".toList "ab".toList 2).length ≤ 2 := by decide

/-! ## Claim C5 — tie-breaking in the context windower -/

/-- C5 (amended): the selection order of `_extract_relevant_context` is the
stable descending sort by Python tuple comparison on `(overlap, sentence)`:
between equal-score sentences the lexicographically greater sentence text is
placed earlier (the third conjunct characterizes the order), not the sentence
occurring first in the document. -/
theorem C5_tie_ordering (question context : Str) :
    (selectionOrder question context).Pairwise (fun x y => tupGtB y x = false) ∧
    List.Perm (selectionOrder question context) (scoredSentences question context) ∧
    ∀ x y : ℕ × Str, tupGtB y x = false ↔
      (y.1 < x.1 ∨ (x.1 = y.1 ∧ strLt x.2 y.2 = false)) := by
  refine ⟨pySortDesc_pairwise _, pySortDesc_perm _, ?_⟩
  intro x y
  simp only [tupGtB, Bool.or_eq_false_iff, Bool.and_eq_false_iff,
    decide_eq_false_iff_not]
  constructor
  · rintro ⟨h1, h2⟩
    rcases Nat.lt_or_ge y.1 x.1 with h | h
    · exact Or.inl h
    · have hxy : x.1 = y.1 := by omega
      rcases h2 with h2 | h2
      · exact absurd hxy.symm h2
      · exact Or.inr ⟨hxy, h2⟩
  · rintro (h | ⟨h1, h2⟩)
    · exact ⟨by omega, Or.inl (by omega)⟩
    · exact ⟨by omega, Or.inr h2⟩

/-- C5 witness: the selection order for a concrete two-sentence document is
pairwise descending. -/
theorem C5_tie_ordering_witness :
    (selectionOrder "q".toList "b.a".toList).Pairwise (fun x y => tupGtB y x = false) :=
  (C5_tie_ordering "q".toList "b.a".toList).1

/-- C5 counterexample: in `"aa.zz"` the sentences `"aa"` (first in the
document) and `"zz"` have equal relevance score for question `"q"`, yet the
later sentence `"zz"` is placed first in the selection order and is the one
kept when only one fits (`max_length = 2`), contradicting the claimed
first-occurrence preference. -/
theorem C5_counterexample :
    pySplit '.' "aa.zz".toList = ["aa".toList, "zz".toList] ∧
    scoredSentences "q".toList "aa.zz".toList = [(0, "aa".toList), (0, "zz".toList)] ∧
    selectionOrder "q".toList "aa.zz".toList = [(0, "zz".toList), (0, "aa".toList)] ∧
    extractRelevantContext "q".toList "aa.zz".toList 2 = "zz.".toList := by decide

/-! ## Claim C10 — QA battery overall risk thresholds -/

/-- C10: the six-question QA battery maps its accumulated total risk score to
`"high"` at `0.7` and above, `"medium"` at `0.4` and above, `"low"` below
that, and never produces a `"critical"` tier on this path. -/
theorem C10_qa_risk_thresholds (qa : QAOracle) (doc : Str) :
    (analyze_document_for_fraud_questions qa doc).overall_risk =
      (if 7/10 ≤ totalRiskScore qa doc then "high".toList
       else if 4/10 ≤ totalRiskScore qa doc then "medium".toList
       else "low".toList) ∧
    (analyze_document_for_fraud_questions qa doc).total_risk_score =
      pyRound (totalRiskScore qa doc) 3 ∧
    (analyze_document_for_fraud_questions qa doc).overall_risk ≠ "critical".toList := by
  refine ⟨rfl, rfl, ?_⟩
  unfold analyze_document_for_fraud_questions
  dsimp only
  split_ifs <;> decide

/-- C10 witness: a concrete run of the battery cannot report `"critical"`. -/
theorem C10_qa_risk_thresholds_witness :
    (analyze_document_for_fraud_questions (fun _ _ => Except.ok ([], 0))
      "note".toList).overall_risk ≠ "critical".toList :=
  (C10_qa_risk_thresholds (fun _ _ => Except.ok ([], 0)) "note".toList).2.2

/-! ## Claim C9 — determinism and the reported processing time -/

set_option maxRecDepth 100000 in
/-- C9 counterexample: two calls of app.py's `analyze_text_for_fraud` with
identical text and identical injected classifier responses but different
wall-clock readings return different `FraudAnalysisResult`s: the reported
processing time is computed from `datetime.utcnow()`, which is not part of
the injected capability responses. -/
theorem C9_counterexample :
    (analyze_text_for_fraud_app (fun _ => none) "hi".toList 0 1).processing_time = 1000 ∧
    (analyze_text_for_fraud_app (fun _ => none) "hi".toList 0 2).processing_time = 2000 ∧
    analyze_text_for_fraud_app (fun _ => none) "hi".toList 0 1 ≠
      analyze_text_for_fraud_app (fun _ => none) "hi".toList 0 2 := by
  with_unfolding_all decide

/-- C9 (amended): every field of app.py's result except the reported
processing time is a function of the text and the injected classifier
responses alone — two calls with identical text and capability responses
agree on `fraud_score`, `risk_level`, and the full `patterns` list (in
order), whatever the clock readings. -/
theorem C9_determinism (cl : Classifier) (text : Str) (t0 t1 s0 s1 : ℚ) :
    (analyze_text_for_fraud_app cl text t0 t1).fraud_score =
      (analyze_text_for_fraud_app cl text s0 s1).fraud_score ∧
    (analyze_text_for_fraud_app cl text t0 t1).risk_level =
      (analyze_text_for_fraud_app cl text s0 s1).risk_level ∧
    (analyze_text_for_fraud_app cl text t0 t1).patterns =
      (analyze_text_for_fraud_app cl text s0 s1).patterns :=
  ⟨rfl, rfl, rfl⟩

/-- C9 witness: a concrete instance of the clock-independence of the
non-time fields. -/
theorem C9_determinism_witness :
    (analyze_text_for_fraud_app (fun _ => none) "hi".toList 0 1).fraud_score =
      (analyze_text_for_fraud_app (fun _ => none) "hi".toList 0 2).fraud_score :=
  (C9_determinism (fun _ => none) "hi".toList 0 1 0 2).1

/-! ## Claim C1 — risk tier thresholds across entry points -/

/-- C1 (amended): app.py's `analyze_text_for_fraud` and
`EmotionFraudDetector.analyze_fraud_patterns` derive the tier from the
normalized score by the `0.8 / 0.6 / 0.3` four-tier thresholds, but
app_updated.py's `analyze_text_for_fraud` instead uses `0.7 → HIGH`,
`0.4 → MEDIUM`, else `LOW`, and can never report a critical tier: the
thresholds are not the same for every analysis entry point. -/
theorem C1_risk_tier_mappings (cl : Classifier) (cap : EmotionCap) (text : Str) (t0 t1 : ℚ) :
    (analyze_text_for_fraud_app cl text t0 t1).risk_level =
      (if 8/10 ≤ appFraudScore cl text then "critical".toList
       else if 6/10 ≤ appFraudScore cl text then "high".toList
       else if 3/10 ≤ appFraudScore cl text then "medium".toList
       else "low".toList) ∧
    (analyze_fraud_patterns cap text t0 t1).risk_level =
      (if 8/10 ≤ efdTotalScore cap text then "critical".toList
       else if 6/10 ≤ efdTotalScore cap text then "high".toList
       else if 3/10 ≤ efdTotalScore cap text then "medium".toList
       else "low".toList) ∧
    (analyze_text_for_fraud_updated cl text t0 t1).risk_level =
      (if 7/10 ≤ appUFraudScore cl text then "HIGH".toList
       else if 4/10 ≤ appUFraudScore cl text then "MEDIUM".toList
       else "LOW".toList) ∧
    (analyze_text_for_fraud_updated cl text t0 t1).risk_level ≠ "CRITICAL".toList := by
  refine ⟨rfl, rfl, rfl, ?_⟩
  unfold analyze_text_for_fraud_updated
  dsimp only
  split_ifs <;> decide

/-- C1 witness: a concrete call of app_updated.py's analyzer cannot report a
critical tier. -/
theorem C1_risk_tier_mappings_witness :
    (analyze_text_for_fraud_updated (fun _ => none) "hi".toList 0 0).risk_level ≠
      "CRITICAL".toList :=
  (C1_risk_tier_mappings (fun _ => none) (fun _ => none) "hi".toList 0 0).2.2.2

set_option maxRecDepth 100000 in
/-- C1 counterexample: the text containing all six urgency keywords gets
normalized fraud score `0.3` from app_updated.py's analyzer, which reports
`"LOW"`, while the claimed uniform four-tier mapping assigns `MEDIUM` to a
score of `0.3`: the claimed thresholds do not hold on this entry point. -/
theorem C1_counterexample :
    (analyze_text_for_fraud_updated (fun _ => none)
        "urgent immediate asap emergency critical rush".toList 0 0).fraud_score = 3/10 ∧
    appUFraudScore (fun _ => none)
        "urgent immediate asap emergency critical rush".toList = 3/10 ∧
    (analyze_text_for_fraud_updated (fun _ => none)
        "urgent immediate asap emergency critical rush".toList 0 0).risk_level =
      "LOW".toList ∧
    specRiskTier (3/10) = "MEDIUM".toList ∧
    (analyze_text_for_fraud_updated (fun _ => none)
        "urgent immediate asap emergency critical rush".toList 0 0).risk_level ≠
      specRiskTier (appUFraudScore (fun _ => none)
        "urgent immediate asap emergency critical rush".toList) := by
  with_unfolding_all decide

/-! ## Claim C6 — detector weighting and degradation -/

/-- C6 (amended): `analyze_fraud_patterns` always combines the sub-scores as
`emotion * 0.4 + pattern * 0.6`; when the emotion capability is unavailable
the emotion sub-score is `0`, so the final score is the pattern sub-score
silently scaled by `0.6` — the emotion weight is not redistributed. -/
theorem C6_weight_combination (cap : EmotionCap) (text : Str) (t0 t1 : ℚ) :
    (analyze_fraud_patterns cap text t0 t1).fraud_score = pyRound (efdTotalScore cap text) 3 ∧
    efdTotalScore cap text =
      (analyze_emotions cap text).emotion_fraud_score * (4/10)
        + (emotionPatternAnalysis text).2 * (6/10) ∧
    ((analyze_emotions cap text).error = true →
      efdTotalScore cap text = (emotionPatternAnalysis text).2 * (6/10)) := by
  refine ⟨rfl, rfl, ?_⟩
  intro herr
  have hscore : (analyze_emotions cap text).emotion_fraud_score = 0 := by
    cases h : cap (text.take 512) with
    | none => simp [analyze_emotions, h]
    | some rs => exact absurd herr (by simp [analyze_emotions, h])
  unfold efdTotalScore
  rw [hscore]
  ring

set_option maxRecDepth 100000 in
/-- C6 witness: with the capability unavailable, the combined score of a
concrete call is the pattern sub-score scaled by `0.6`. -/
theorem C6_weight_combination_witness :
    (analyze_emotions (fun _ => none) "fee".toList).error = true ∧
    efdTotalScore (fun _ => none) "fee".toList =
      (emotionPatternAnalysis "fee".toList).2 * (6/10) :=
  ⟨by with_unfolding_all decide,
   (C6_weight_combination (fun _ => none) "fee".toList 0 0).2.2 (by with_unfolding_all decide)⟩

set_option maxRecDepth 100000 in
/-- C6 counterexample: on a text whose pattern sub-score is `0.5`, the
degraded detector reports fraud score `0.3 = 0.5 * 0.6`, not the pattern
sub-score `0.5` at full weight as the claim asserts. -/
theorem C6_counterexample :
    (emotionPatternAnalysis "urgent immediate confidential bitcoin offshore".toList).2
      = 1/2 ∧
    (analyze_fraud_patterns (fun _ => none)
        "urgent immediate confidential bitcoin offshore".toList 0 0).fraud_score = 3/10 ∧
    ((3 : ℚ)/10) ≠ ((1 : ℚ)/2) := by
  with_unfolding_all decide

/-! ## Claim C8 — emotion signal policy -/

/-- Characterization of the `analyze_emotions` loop: the indicator list is the
map over the filtered results and the raw score is the sum of the
per-indicator contributions. -/
theorem emotion_foldl_spec (results : List (Str × ℚ)) :
    ∀ init : List (Str × ℚ) × List (Str × ℚ × Str) × ℚ,
      (results.foldl emotionStep init).2.1 =
        init.2.1 ++ (results.filter (fun r => is_fraud_indicating_emotion r.1 r.2)).map
          (fun r => (r.1, pyRound r.2 3, get_fraud_reason r.1)) ∧
      (results.foldl emotionStep init).2.2 =
        init.2.2 + ((results.filter (fun r => is_fraud_indicating_emotion r.1 r.2)).map
          (fun r => r.2 * get_emotion_weight r.1)).sum := by
  induction results with
  | nil => intro init; simp
  | cons r t ih =>
    intro init
    have h1 := ih (emotionStep init r)
    by_cases hr : is_fraud_indicating_emotion r.1 r.2 = true
    · constructor
      · rw [List.foldl_cons, h1.1]
        simp [emotionStep, hr, List.filter_cons]
      · rw [List.foldl_cons, h1.2]
        simp [emotionStep, hr, List.filter_cons]
        ring
    · constructor
      · rw [List.foldl_cons, h1.1]
        simp [emotionStep, hr, List.filter_cons]
      · rw [List.foldl_cons, h1.2]
        simp [emotionStep, hr, List.filter_cons]

/-- C8: in `analyze_emotions`, exactly the `(label, confidence)` pairs whose
lowercase label is in `{anger, fear, sadness}` and whose confidence is
strictly above `0.3` produce a fraud indicator; the emotion sub-score is the
clamped (and rounded) sum of `confidence * weight` over those pairs, with
per-label weights anger `0.4`, fear `0.6`, sadness `0.3`; all other pairs
contribute nothing. -/
theorem C8_emotion_signal_policy (rs : List (Str × ℚ)) (text : Str) :
    (analyze_emotions (fun _ => some rs) text).fraud_indicators =
      (rs.filter (fun r => is_fraud_indicating_emotion r.1 r.2)).map
        (fun r => (r.1, pyRound r.2 3, get_fraud_reason r.1)) ∧
    (analyze_emotions (fun _ => some rs) text).emotion_fraud_score =
      pyRound (min (((rs.filter (fun r => is_fraud_indicating_emotion r.1 r.2)).map
        (fun r => r.2 * get_emotion_weight r.1)).sum) 1) 3 ∧
    (∀ r ∈ rs, is_fraud_indicating_emotion r.1 r.2 = true ↔
      (pyLower r.1 ∈ fraudEmotions ∧ 3/10 < r.2)) ∧
    get_emotion_weight "anger".toList = 4/10 ∧
    get_emotion_weight "fear".toList = 6/10 ∧
    get_emotion_weight "sadness".toList = 3/10 := by
  have hspec := emotion_foldl_spec rs ([], [], 0)
  refine ⟨?_, ?_, ?_, by with_unfolding_all decide, by with_unfolding_all decide,
    by with_unfolding_all decide⟩
  · simpa [analyze_emotions] using hspec.1
  · have h2 := hspec.2
    simp only [analyze_emotions]
    rw [h2]
    simp
  · intro r hr
    simp [is_fraud_indicating_emotion, List.contains, List.elem_iff]

/-- C8 witness: for the concrete classifier output
`[(anger, 0.5), (joy, 0.9), (fear, 0.25)]` only the anger pair qualifies and
the sub-score is `0.5 * 0.4 = 0.2`. -/
theorem C8_emotion_signal_policy_witness :
    (analyze_emotions (fun _ => some [("anger".toList, 1/2), ("joy".toList, 9/10),
        ("fear".toList, 1/4)]) "t".toList).emotion_fraud_score = 1/5 ∧
    (is_fraud_indicating_emotion "anger".toList (1/2) = true ↔
      (pyLower "anger".toList ∈ fraudEmotions ∧ 3/10 < (1/2 : ℚ))) := by
  constructor
  · rw [(C8_emotion_signal_policy [("anger".toList, 1/2), ("joy".toList, 9/10),
      ("fear".toList, 1/4)] "t".toList).2.1]
    with_unfolding_all decide
  · exact (C8_emotion_signal_policy [("anger".toList, 1/2), ("joy".toList, 9/10),
      ("fear".toList, 1/4)] "t".toList).2.2.1 ("anger".toList, 1/2) (by with_unfolding_all decide)

/-! ## Claim C2 — score and confidence ranges -/

/-- Word-scan scores are nonnegative when the per-word increment is. -/
theorem wordScan_snd_nonneg (al pre : Str) (inc : ℚ) (hinc : 0 ≤ inc) (ws : List Str) :
    0 ≤ (wordScan al pre inc ws).2 := by
  have hstep : ∀ (acc : List Str × ℚ), ∀ w ∈ ws,
      acc.2 ≤ ((fun (acc : List Str × ℚ) w =>
        if containsSub w al then (acc.1 ++ [indicatorMsg pre w], acc.2 + inc)
        else acc) acc w).2 := by
    intro acc w _
    dsimp only
    split
    · dsimp only; linarith
    · exact le_refl _
  exact foldl_mono_of_step _ (fun acc => acc.2) ws hstep ([], 0)

/-- Amount-scan scores are nonnegative. -/
theorem amountIndicators_snd_nonneg (ans : Str) : 0 ≤ (amountIndicators ans).2 := by
  have hstep : ∀ (acc : List Str × ℚ), ∀ m ∈ amountScan ans,
      acc.2 ≤ ((fun (acc : List Str × ℚ) m =>
        match parseAmount m with
        | some v =>
          if 10000 < v then (acc.1 ++ ["Large amount detected: ".toList ++ m], acc.2 + 2/10)
          else acc
        | none => acc) acc m).2 := by
    intro acc m _
    dsimp only
    rcases parseAmount m with _ | v
    · exact le_refl _
    · dsimp only
      split
      · dsimp only; linarith
      · exact le_refl _
  exact foldl_mono_of_step _ (fun acc => acc.2) (amountScan ans) hstep ([], 0)

/-- Category-scan scores are nonnegative. -/
theorem categoryScan_snd_nonneg (answer category : Str) :
    0 ≤ (categoryScan answer category).2 := by
  unfold categoryScan
  split_ifs
  · exact wordScan_snd_nonneg _ _ _ (by norm_num) _
  · exact wordScan_snd_nonneg _ _ _ (by norm_num) _
  · exact wordScan_snd_nonneg _ _ _ (by norm_num) _
  · exact amountIndicators_snd_nonneg _
  · norm_num

/-- The per-question local risk score is a value clamped into `[0, 1]`. -/
theorem analyzeAnswerForFraud_risk_bounds (answer category : Str) :
    0 ≤ (analyzeAnswerForFraud answer category).risk_score ∧
    (analyzeAnswerForFraud answer category).risk_score ≤ 1 := by
  have h : (analyzeAnswerForFraud answer category).risk_score =
      min ((categoryScan answer category).2
        + (wordScan (pyLower answer) "General fraud indicator: ".toList (3/10)
            qaGeneralFraudWords).2) 1 := rfl
  rw [h]
  constructor
  · exact le_min (add_nonneg (categoryScan_snd_nonneg _ _)
      (wordScan_snd_nonneg _ _ _ (by norm_num) _)) (by norm_num)
  · exact min_le_right _ _

/-- Unfolding equation for the risk score of one battery item. -/
theorem qaItem_risk_eq (qa : QAOracle) (doc : Str) (spec : QAQuestionSpec) :
    (qaItem qa doc spec).risk_score =
      (analyzeAnswerForFraud (answer_question qa spec.question doc).answer
        spec.category).risk_score * spec.risk_weight := rfl

/-- The accumulated total of the battery lies in `[0, 2.3]` (the sum of the
six risk weights), but is not clamped to `[0, 1]`. -/
theorem totalRiskScore_bounds (qa : QAOracle) (doc : Str) :
    0 ≤ totalRiskScore qa doc ∧ totalRiskScore qa doc ≤ 23/10 := by
  have h1 := analyzeAnswerForFraud_risk_bounds
    (answer_question qa "What is the total amount mentioned in this document?".toList doc).answer
    "amount_verification".toList
  have h2 := analyzeAnswerForFraud_risk_bounds
    (answer_question qa "Are there any urgent or immediate payment requests?".toList doc).answer
    "urgency_indicators".toList
  have h3 := analyzeAnswerForFraud_risk_bounds
    (answer_question qa "What contact information is provided in this document?".toList doc).answer
    "contact_verification".toList
  have h4 := analyzeAnswerForFraud_risk_bounds
    (answer_question qa "Are there any mentions of wire transfers or cryptocurrency?".toList
      doc).answer
    "payment_methods".toList
  have h5 := analyzeAnswerForFraud_risk_bounds
    (answer_question qa "What is the purpose or reason for this transaction?".toList doc).answer
    "transaction_purpose".toList
  have h6 := analyzeAnswerForFraud_risk_bounds
    (answer_question qa
      "Are there any confidentiality or secrecy requirements mentioned?".toList doc).answer
    "secrecy_indicators".toList
  simp only [totalRiskScore, fraudQuestions, List.map_cons, List.map_nil, List.sum_cons,
    List.sum_nil, qaItem_risk_eq]
  constructor
  · have l1 := mul_nonneg h1.1 (by norm_num : (0:ℚ) ≤ 3/10)
    have l2 := mul_nonneg h2.1 (by norm_num : (0:ℚ) ≤ 4/10)
    have l3 := mul_nonneg h3.1 (by norm_num : (0:ℚ) ≤ 2/10)
    have l4 := mul_nonneg h4.1 (by norm_num : (0:ℚ) ≤ 5/10)
    have l5 := mul_nonneg h5.1 (by norm_num : (0:ℚ) ≤ 3/10)
    have l6 := mul_nonneg h6.1 (by norm_num : (0:ℚ) ≤ 6/10)
    linarith
  · have u1 := mul_le_of_le_one_left (by norm_num : (0:ℚ) ≤ 3/10) h1.2
    have u2 := mul_le_of_le_one_left (by norm_num : (0:ℚ) ≤ 4/10) h2.2
    have u3 := mul_le_of_le_one_left (by norm_num : (0:ℚ) ≤ 2/10) h3.2
    have u4 := mul_le_of_le_one_left (by norm_num : (0:ℚ) ≤ 5/10) h4.2
    have u5 := mul_le_of_le_one_left (by norm_num : (0:ℚ) ≤ 3/10) h5.2
    have u6 := mul_le_of_le_one_left (by norm_num : (0:ℚ) ≤ 6/10) h6.2
    linarith

/-- Keyword folds only increase the running score. -/
theorem appKeywordFold_snd_mono (textLower : Str) (init : List PatternEntry × ℚ) :
    init.2 ≤ (appFraudKeywords.foldl (appKeywordStep textLower) init).2 := by
  have hstep : ∀ (acc : List PatternEntry × ℚ), ∀ kw ∈ appFraudKeywords,
      acc.2 ≤ (appKeywordStep textLower acc kw).2 := by
    intro acc kw _
    unfold appKeywordStep
    split
    · dsimp only; linarith
    · exact le_refl _
  exact foldl_mono_of_step _ (fun acc => acc.2) appFraudKeywords hstep init

/-- The emotion-branch score of app.py is nonnegative whenever the classifier
confidences are. -/
theorem appEmotionEntries_snd_nonneg (cl : Classifier) (text : Str)
    (hcl : ∀ rs, cl (text.take 512) = some rs → ∀ r ∈ rs, 0 ≤ r.2 ∧ r.2 ≤ 1) :
    0 ≤ (appEmotionEntries cl text).2 := by
  unfold appEmotionEntries
  cases h : cl (text.take 512) with
  | none => norm_num
  | some rs =>
    dsimp only
    have hstep : ∀ (acc : List PatternEntry × ℚ), ∀ r ∈ rs,
        acc.2 ≤ ((fun (acc : List PatternEntry × ℚ) (r : Str × ℚ) =>
          if fraudEmotions.any (fun w => containsSub w (pyLower r.1)) then
            (acc.1 ++ [⟨"suspicious_emotion".toList, r.2, toneMsg r.1⟩],
             acc.2 + r.2 * (2/10))
          else acc) acc r).2 := by
      intro acc r hr
      dsimp only
      split
      · dsimp only
        have := (hcl rs h r hr).1
        nlinarith
      · exact le_refl _
    exact foldl_mono_of_step _ (fun acc => acc.2) rs hstep ([], 0)

/-- Every pattern entry of the app.py emotion branch carries a classifier
confidence. -/
theorem appEmotionEntries_mem (cl : Classifier) (text : Str) :
    ∀ e ∈ (appEmotionEntries cl text).1,
      ∃ rs r, cl (text.take 512) = some rs ∧ r ∈ rs ∧ e.confidence = r.2 := by
  unfold appEmotionEntries
  cases h : cl (text.take 512) with
  | none => intro e he; simp at he
  | some rs =>
    intro e he
    have := foldl_mem_of_step
      (fun acc (r : Str × ℚ) =>
        if fraudEmotions.any (fun w => containsSub w (pyLower r.1)) then
          (acc.1 ++ [⟨"suspicious_emotion".toList, r.2, toneMsg r.1⟩], acc.2 + r.2 * (2/10))
        else acc)
      (fun acc => acc.1) (fun e => ∃ r ∈ rs, e.confidence = r.2) rs ?_ ([], 0) e he
    · rcases this with h1 | ⟨r, hr, hconf⟩
      · simp at h1
      · exact ⟨rs, r, rfl, hr, hconf⟩
    · intro acc x hx e2 he2
      dsimp only at he2
      split at he2
      · rcases List.mem_append.mp he2 with h2 | h2
        · exact Or.inl h2
        · simp only [List.mem_singleton] at h2
          subst h2
          exact Or.inr ⟨x, hx, rfl⟩
      · exact Or.inl he2

/-- Every entry appended by the keyword fold has confidence `0.7`. -/
theorem appKeywordFold_mem (textLower : Str) (init : List PatternEntry × ℚ) :
    ∀ e ∈ (appFraudKeywords.foldl (appKeywordStep textLower) init).1,
      e ∈ init.1 ∨ e.confidence = 7/10 := by
  refine foldl_mem_of_step _ (fun acc => acc.1) (fun e => e.confidence = 7/10)
    appFraudKeywords ?_ init
  intro acc kw _ e he
  unfold appKeywordStep at he
  split at he
  · rcases List.mem_append.mp he with h2 | h2
    · exact Or.inl h2
    · simp only [List.mem_singleton] at h2
      subst h2
      exact Or.inr rfl
  · exact Or.inl he

/-- C2 (amended): app.py's normalized fraud score lies in `[0, 1]` and every
emitted signal confidence lies in `[0, 1]` whenever the injected classifier
confidences do; in the QA battery every per-question local risk score is
clamped into `[0, 1]`, but the battery's `total_risk_score` is the unclamped
sum of the weighted per-question scores, bounded only by the total weight
`2.3` — it is not clamped to `1.0`. -/
theorem C2_score_ranges :
    (∀ (cl : Classifier) (text : Str),
      (∀ rs, cl (text.take 512) = some rs → ∀ r ∈ rs, 0 ≤ r.2 ∧ r.2 ≤ 1) →
      (0 ≤ appFraudScore cl text ∧ appFraudScore cl text ≤ 1 ∧
       ∀ e ∈ (appAnalysis cl text).1, 0 ≤ e.confidence ∧ e.confidence ≤ 1)) ∧
    (∀ (qa : QAOracle) (doc : Str),
      (∀ it ∈ (analyze_document_for_fraud_questions qa doc).fraud_analysis,
        0 ≤ it.fraud_indicators.risk_score ∧ it.fraud_indicators.risk_score ≤ 1) ∧
      0 ≤ totalRiskScore qa doc ∧ totalRiskScore qa doc ≤ 23/10) := by
  constructor
  · intro cl text hcl
    have hk : 0 ≤ (appFraudKeywords.foldl (appKeywordStep (pyLower text))
        (appEmotionEntries cl text)).2 :=
      le_trans (appEmotionEntries_snd_nonneg cl text hcl)
        (appKeywordFold_snd_mono (pyLower text) _)
    have hraw : 0 ≤ (appAnalysis cl text).2 := by
      simp only [appAnalysis]
      split_ifs <;> linarith
    refine ⟨le_min hraw (by norm_num), min_le_right _ _, ?_⟩
    intro e he
    have hmem : e ∈ (appFraudKeywords.foldl (appKeywordStep (pyLower text))
        (appEmotionEntries cl text)).1 ∨ e.confidence = 6/10 ∨ e.confidence = 5/10 := by
      simp only [appAnalysis] at he
      split_ifs at he <;>
        first
          | (rcases List.mem_append.mp he with h2 | h2
             · rcases List.mem_append.mp h2 with h3 | h3
               · exact Or.inl h3
               · simp only [List.mem_singleton] at h3; subst h3; exact Or.inr (Or.inl rfl)
             · simp only [List.mem_singleton] at h2; subst h2; exact Or.inr (Or.inr rfl))
          | (rcases List.mem_append.mp he with h2 | h2
             · exact Or.inl h2
             · simp only [List.mem_singleton] at h2
               subst h2
               first
                 | exact Or.inr (Or.inl rfl)
                 | exact Or.inr (Or.inr rfl))
          | exact Or.inl he
    rcases hmem with hm | hm | hm
    · rcases appKeywordFold_mem (pyLower text) _ e hm with hm2 | hm2
      · rcases appEmotionEntries_mem cl text e hm2 with ⟨rs, r, hrs, hr, hconf⟩
        rw [hconf]
        exact hcl rs hrs r hr
      · rw [hm2]; norm_num
    · rw [hm]; norm_num
    · rw [hm]; norm_num
  · intro qa doc
    refine ⟨?_, totalRiskScore_bounds qa doc⟩
    intro it hit
    simp only [analyze_document_for_fraud_questions] at hit
    rcases List.mem_map.mp hit with ⟨spec, _, rfl⟩
    exact analyzeAnswerForFraud_risk_bounds _ _

/-- C2 witness: concrete instantiation with an unavailable classifier and a
trivial QA oracle. -/
theorem C2_score_ranges_witness :
    (0 ≤ appFraudScore (fun _ => none) "x".toList ∧
      appFraudScore (fun _ => none) "x".toList ≤ 1) ∧
    totalRiskScore (fun _ _ => Except.ok ([], 0)) "x".toList ≤ 23/10 := by
  have h1 := C2_score_ranges.1 (fun _ => none) "x".toList
    (by intro rs h; cases h)
  exact ⟨⟨h1.1, h1.2.1⟩, (C2_score_ranges.2 (fun _ _ => Except.ok ([], 0)) "x".toList).2.2⟩

set_option maxRecDepth 400000 in
/-- C2 counterexample: a QA oracle answering the payment question with four
suspicious payment methods and the secrecy question with three secrecy words
drives the payment and secrecy local scores to their clamps, and the reported
`total_risk_score` is `0.5 + 0.6 = 1.1 > 1`: the total is never clamped to
`[0, 1]`. -/
theorem C2_counterexample :
    (analyze_document_for_fraud_questions
      (fun q _ =>
        if q = "Are there any mentions of wire transfers or cryptocurrency?".toList then
          Except.ok ("wire transfer bitcoin cryptocurrency cash".toList, 9/10)
        else if q = "Are there any confidentiality or secrecy requirements mentioned?".toList then
          Except.ok ("confidential secret private".toList, 9/10)
        else Except.ok ([], 9/10))
      "memo".toList).total_risk_score = 11/10 ∧
    ¬ (analyze_document_for_fraud_questions
      (fun q _ =>
        if q = "Are there any mentions of wire transfers or cryptocurrency?".toList then
          Except.ok ("wire transfer bitcoin cryptocurrency cash".toList, 9/10)
        else if q = "Are there any confidentiality or secrecy requirements mentioned?".toList then
          Except.ok ("confidential secret private".toList, 9/10)
        else Except.ok ([], 9/10))
      "memo".toList).total_risk_score ≤ 1 := by
  with_unfolding_all decide

/-! ## Claim C7 — per-question failure isolation in the QA battery -/

/-- The error answer text scores zero in every battery category. -/
theorem errmsg_risk_zero :
    ∀ spec ∈ fraudQuestions,
      (analyzeAnswerForFraud errProcessingMsg spec.category).risk_score = 0 := by
  intro spec h
  fin_cases h <;> with_unfolding_all decide

/-- An empty answer scores zero in every battery category. -/
theorem empty_risk_zero :
    ∀ spec ∈ fraudQuestions,
      (analyzeAnswerForFraud [] spec.category).risk_score = 0 := by
  intro spec h
  fin_cases h <;> with_unfolding_all decide

/-- C7 (amended): every one of the six questions is attempted and appears in
order in the output; a question whose capability call raised contributes
exactly zero and carries the answer text `"Error processing question"
(its only error marking — the success-branch item has no error field); a
question answered with the empty string also contributes exactly zero and
does not abort the battery, but its entry carries no error indicator at
all. -/
theorem C7_question_isolation (qa : QAOracle) (doc : Str) :
    ((analyze_document_for_fraud_questions qa doc).fraud_analysis.map
        (fun it => it.question)) = fraudQuestions.map (fun s => s.question) ∧
    (analyze_document_for_fraud_questions qa doc).fraud_analysis.length = 6 ∧
    ∀ p ∈ fraudQuestions.zip ((analyze_document_for_fraud_questions qa doc).fraud_analysis),
      ((answer_question qa p.1.question doc).error ≠ none →
        p.2.answer = errProcessingMsg ∧ p.2.risk_score = 0) ∧
      ((answer_question qa p.1.question doc).answer = [] → p.2.risk_score = 0) := by
  refine ⟨rfl, rfl, ?_⟩
  intro p hp
  have hfa : (analyze_document_for_fraud_questions qa doc).fraud_analysis =
      fraudQuestions.map (qaItem qa doc) := rfl
  rw [hfa] at hp
  obtain ⟨heq, hmem⟩ := zip_map_self (qaItem qa doc) fraudQuestions p hp
  obtain ⟨spec, item⟩ := p
  dsimp only at heq hmem ⊢
  subst heq
  have hans : (qaItem qa doc spec).answer = (answer_question qa spec.question doc).answer := rfl
  have hrisk : (qaItem qa doc spec).risk_score =
      (analyzeAnswerForFraud (answer_question qa spec.question doc).answer
        spec.category).risk_score * spec.risk_weight := rfl
  constructor
  · intro herr
    cases hq : qa spec.question
        (if 512 < doc.length then extractRelevantContext spec.question doc 512 else doc) with
    | ok v =>
      have : (answer_question qa spec.question doc).error = none := by
        simp [answer_question, hq]
      exact absurd this herr
    | error e =>
      have ha : (answer_question qa spec.question doc).answer = errProcessingMsg := by
        simp [answer_question, hq]
      refine ⟨hans.trans ha, ?_⟩
      rw [hrisk, ha, errmsg_risk_zero spec hmem, zero_mul]
  · intro hempty
    rw [hrisk, hempty, empty_risk_zero spec hmem, zero_mul]

/-- A witness oracle raising only on the urgency question. -/
def qaErrOracle : QAOracle := fun q _ =>
  if q = "Are there any urgent or immediate payment requests?".toList then
    Except.error "boom".toList
  else Except.ok ([], 1/2)

set_option maxRecDepth 400000 in
/-- C7 witness: with an oracle that raises only on the urgency question, all
six questions still appear, and the urgency item carries the error answer and
zero risk. -/
theorem C7_question_isolation_witness :
    ((analyze_document_for_fraud_questions qaErrOracle "memo".toList).fraud_analysis.map
        (fun it => it.question)) = fraudQuestions.map (fun s => s.question) ∧
    (qaItem qaErrOracle "memo".toList
        ⟨"Are there any urgent or immediate payment requests?".toList,
         "urgency_indicators".toList, 4/10⟩).answer = errProcessingMsg ∧
    (qaItem qaErrOracle "memo".toList
        ⟨"Are there any urgent or immediate payment requests?".toList,
         "urgency_indicators".toList, 4/10⟩).risk_score = 0 := by
  have h := (C7_question_isolation qaErrOracle "memo".toList).2.2
    (⟨"Are there any urgent or immediate payment requests?".toList,
      "urgency_indicators".toList, 4/10⟩,
     qaItem qaErrOracle "memo".toList
      ⟨"Are there any urgent or immediate payment requests?".toList,
       "urgency_indicators".toList, 4/10⟩)
    (by with_unfolding_all decide)
  have h2 := h.1 (by with_unfolding_all decide)
  exact ⟨(C7_question_isolation qaErrOracle "memo".toList).1, h2.1, h2.2⟩

/-- Modelled from the claim's words: an "error indicator" on a
`fraud_analysis` entry — an explicit error field, or the error answer text
used by the capability-failure path. -/
def specErrorIndicator (it : FraudQAItem) : Prop :=
  it.error ≠ none ∨ it.answer = errProcessingMsg

instance (it : FraudQAItem) : Decidable (specErrorIndicator it) :=
  inferInstanceAs (Decidable (it.error ≠ none ∨ it.answer = errProcessingMsg))

/-- An oracle answering every question with the empty string. -/
def qaEmptyOracle : QAOracle := fun _ _ => Except.ok ([], 1/2)

set_option maxRecDepth 400000 in
/-- C7 counterexample: when the oracle answers every question with the empty
string (a failure per the claim), every item contributes zero and the battery
completes, but no item carries any error indicator — neither an error field
nor the error answer text — contradicting the claim that failing questions
appear with an error indicator. -/
theorem C7_counterexample :
    ((analyze_document_for_fraud_questions qaEmptyOracle "note".toList).fraud_analysis.map
        (fun it => (it.answer, it.risk_score, it.error))) =
      [([], 0, none), ([], 0, none), ([], 0, none), ([], 0, none), ([], 0, none),
       ([], 0, none)] ∧
    ((analyze_document_for_fraud_questions qaEmptyOracle "note".toList).fraud_analysis.all
        (fun it => !(decide (specErrorIndicator it)))) = true := by
  with_unfolding_all decide

/-! ## Claim C3 — one signal per matching keyword category -/

/-- The entry produced for a category names that category. -/
theorem appUEntryFor_pattern (text : Str) (ck : Str × List Str) (e : PatternEntry)
    (h : appUEntryFor text ck = some e) : e.pattern = ck.1 := by
  simp only [appUEntryFor] at h
  by_cases hm : (appUMatches text ck.2).isEmpty = true
  · rw [if_pos hm] at h; cases h
  · rw [if_neg hm] at h
    injection h with h2
    rw [← h2]

/-- A category list containing no entry for key `c` contributes nothing to the
filter for `c`. -/
theorem filterMap_entry_none (text c : Str) :
    ∀ l : List (Str × List Str), (∀ ck ∈ l, ck.1 ≠ c) →
      (l.filterMap (appUEntryFor text)).filter (fun e => decide (e.pattern = c)) = [] := by
  intro l
  induction l with
  | nil => intro _; rfl
  | cons ck t ih =>
    intro h
    rw [List.filterMap_cons]
    rcases he : appUEntryFor text ck with _ | e
    · exact ih (fun ck2 h2 => h ck2 (by simp [h2]))
    · rw [List.filter_cons]
      have hne : e.pattern ≠ c := by
        rw [appUEntryFor_pattern text ck e he]
        exact h ck (by simp)
      rw [if_neg (by simpa using hne)]
      exact ih (fun ck2 h2 => h ck2 (by simp [h2]))

/-- Skipping a head category whose key differs from `c`. -/
theorem filterMap_entry_skip (text : Str) (ck : Str × List Str) (t : List (Str × List Str))
    (c : Str) (hne : ck.1 ≠ c) :
    ((ck :: t).filterMap (appUEntryFor text)).filter (fun e => decide (e.pattern = c)) =
      (t.filterMap (appUEntryFor text)).filter (fun e => decide (e.pattern = c)) := by
  rw [List.filterMap_cons]
  rcases he : appUEntryFor text ck with _ | e
  · rfl
  · rw [List.filter_cons]
    have hne2 : e.pattern ≠ c := by
      rw [appUEntryFor_pattern text ck e he]
      exact hne
    rw [if_neg (by simpa using hne2)]

/-- The head category is the unique contributor to the filter for its own key
when no later category shares it. -/
theorem filterMap_entry_hit (text : Str) (ck : Str × List Str) (t : List (Str × List Str))
    (h : ∀ ck2 ∈ t, ck2.1 ≠ ck.1) :
    ((ck :: t).filterMap (appUEntryFor text)).filter (fun e => decide (e.pattern = ck.1)) =
      (if (appUMatches text ck.2).isEmpty then []
       else [⟨ck.1, ((appUMatches text ck.2).length : ℚ) / ((ck.2.length : ℚ)),
             appUDescr (appUMatches text ck.2).length ck.1⟩]) := by
  rw [List.filterMap_cons]
  by_cases hm : (appUMatches text ck.2).isEmpty = true
  · rw [if_pos hm]
    have hnone : appUEntryFor text ck = none := by simp [appUEntryFor, hm]
    rw [hnone]
    exact filterMap_entry_none text ck.1 t h
  · rw [if_neg hm]
    have hsome : appUEntryFor text ck =
        some ⟨ck.1, ((appUMatches text ck.2).length : ℚ) / ((ck.2.length : ℚ)),
              appUDescr (appUMatches text ck.2).length ck.1⟩ := by
      simp [appUEntryFor, hm]
    rw [hsome, List.filter_cons, if_pos (by simp)]
    rw [filterMap_entry_none text ck.1 t h]

/-- Entries appended by step 3 of app_updated.py are all
`emotional_manipulation` entries. -/
theorem appUSec3_pattern (cl : Classifier) (text : Str) :
    ∀ e ∈ (appUSec3 cl text).1, e.pattern = "emotional_manipulation".toList := by
  unfold appUSec3
  cases h : cl text with
  | none => intro e he; simp at he
  | some rs =>
    intro e he
    have hstep : ∀ (acc : List PatternEntry × ℚ), ∀ r ∈ rs,
        ∀ e2 ∈ ((fun (acc : List PatternEntry × ℚ) (r : Str × ℚ) =>
          if fraudEmotions.contains r.1 && decide (1/2 < r.2) then
            (acc.1 ++ [⟨"emotional_manipulation".toList, r.2, toneMsg r.1⟩],
             acc.2 + r.2 * (2/10))
          else acc) acc r).1,
          e2 ∈ acc.1 ∨ e2.pattern = "emotional_manipulation".toList := by
      intro acc r _ e2 he2
      dsimp only at he2
      split at he2
      · rcases List.mem_append.mp he2 with h2 | h2
        · exact Or.inl h2
        · simp only [List.mem_singleton] at h2
          subst h2
          exact Or.inr rfl
      · exact Or.inl he2
    rcases foldl_mem_of_step _ (fun acc => acc.1)
        (fun e => e.pattern = "emotional_manipulation".toList) rs hstep ([], 0) e he with
      h1 | h1
    · simp at h1
    · exact h1

/-- Step-3 entries never match a keyword-category filter. -/
theorem appUSec3_filter_none (cl : Classifier) (text c : Str)
    (h : c ≠ "emotional_manipulation".toList) :
    (appUSec3 cl text).1.filter (fun e => decide (e.pattern = c)) = [] := by
  rw [List.filter_eq_nil_iff]
  intro e he
  rw [appUSec3_pattern cl text e he]
  simp
  exact fun hc => h hc.symm

/-- C3: for each keyword category of app_updated.py with at least one
case-insensitive substring match, exactly one signal appears among the
emitted pattern entries, with confidence `match_count / keyword_count`, and
no signal appears for categories without matches; each matching category
contributes `confidence * 0.3` to the raw fraud score; and a text containing
the full urgency keyword set yields the urgency signal with confidence
exactly `1.0`. -/
theorem C3_keyword_categories (cl : Classifier) (text : Str) :
    (∀ ck ∈ appUFraudKeywords,
      (appUPatternEntries text ++ (appUSec3 cl text).1).filter
          (fun e => decide (e.pattern = ck.1)) =
        (if (appUMatches text ck.2).isEmpty then []
         else [⟨ck.1, ((appUMatches text ck.2).length : ℚ) / ((ck.2.length : ℚ)),
               appUDescr (appUMatches text ck.2).length ck.1⟩])) ∧
    appUScoreRaw cl text =
      appUSec1Score cl text
        + ((appUPatternEntries text).map (fun e => e.confidence * (3/10))).sum
        + (appUSec3 cl text).2 ∧
    ((∀ k ∈ ["urgent".toList, "immediate".toList, "asap".toList, "emergency".toList,
        "critical".toList, "rush".toList], containsSub k (pyLower text) = true) →
      (appUPatternEntries text ++ (appUSec3 cl text).1).filter
          (fun e => decide (e.pattern = "urgency".toList)) =
        [⟨"urgency".toList, 1, appUDescr 6 "urgency".toList⟩]) := by
  have hcat : ∀ ck ∈ appUFraudKeywords,
      (appUPatternEntries text ++ (appUSec3 cl text).1).filter
          (fun e => decide (e.pattern = ck.1)) =
        (if (appUMatches text ck.2).isEmpty then []
         else [⟨ck.1, ((appUMatches text ck.2).length : ℚ) / ((ck.2.length : ℚ)),
               appUDescr (appUMatches text ck.2).length ck.1⟩]) := by
    intro ck hck
    rw [List.filter_append]
    simp only [appUFraudKeywords, List.mem_cons, List.not_mem_nil, or_false] at hck
    rcases hck with rfl | rfl | rfl | rfl
    · rw [appUSec3_filter_none cl text appUCatUrgency.1 (by decide), List.append_nil]
      simp only [appUPatternEntries, appUFraudKeywords]
      exact filterMap_entry_hit text appUCatUrgency
        [appUCatConfidentiality, appUCatPayment, appUCatAmount] (by decide)
    · rw [appUSec3_filter_none cl text appUCatConfidentiality.1 (by decide), List.append_nil]
      simp only [appUPatternEntries, appUFraudKeywords]
      rw [filterMap_entry_skip text appUCatUrgency
        [appUCatConfidentiality, appUCatPayment, appUCatAmount]
        appUCatConfidentiality.1 (by decide)]
      exact filterMap_entry_hit text appUCatConfidentiality
        [appUCatPayment, appUCatAmount] (by decide)
    · rw [appUSec3_filter_none cl text appUCatPayment.1 (by decide), List.append_nil]
      simp only [appUPatternEntries, appUFraudKeywords]
      rw [filterMap_entry_skip text appUCatUrgency
        [appUCatConfidentiality, appUCatPayment, appUCatAmount] appUCatPayment.1 (by decide),
        filterMap_entry_skip text appUCatConfidentiality
        [appUCatPayment, appUCatAmount] appUCatPayment.1 (by decide)]
      exact filterMap_entry_hit text appUCatPayment [appUCatAmount] (by decide)
    · rw [appUSec3_filter_none cl text appUCatAmount.1 (by decide), List.append_nil]
      simp only [appUPatternEntries, appUFraudKeywords]
      rw [filterMap_entry_skip text appUCatUrgency
        [appUCatConfidentiality, appUCatPayment, appUCatAmount] appUCatAmount.1 (by decide),
        filterMap_entry_skip text appUCatConfidentiality
        [appUCatPayment, appUCatAmount] appUCatAmount.1 (by decide),
        filterMap_entry_skip text appUCatPayment [appUCatAmount] appUCatAmount.1 (by decide)]
      exact filterMap_entry_hit text appUCatAmount [] (by decide)
  refine ⟨hcat, rfl, ?_⟩
  intro hall
  have hm : appUMatches text appUCatUrgency.2 = appUCatUrgency.2 := by
    rw [appUMatches, List.filter_eq_self]
    intro k hk
    refine hall k ?_
    simpa [appUCatUrgency] using hk
  have h1 := hcat appUCatUrgency (by simp [appUFraudKeywords])
  simp only [appUCatUrgency] at h1 hm
  rw [h1, hm]
  norm_num [appUDescr]

/-- C3 witness: the text containing all six urgency keywords yields the
urgency signal with confidence exactly `1.0`. -/
theorem C3_keyword_categories_witness :
    (appUPatternEntries "urgent immediate asap emergency critical rush".toList
        ++ (appUSec3 (fun _ => none)
            "urgent immediate asap emergency critical rush".toList).1).filter
        (fun e => decide (e.pattern = "urgency".toList)) =
      [⟨"urgency".toList, 1, appUDescr 6 "urgency".toList⟩] :=
  (C3_keyword_categories (fun _ => none)
    "urgent immediate asap emergency critical rush".toList).2.2 (by decide)

end FraudDoc
